import Mathlib

set_option linter.unusedVariables false

namespace Cal

/-- Leap year test, as in CPython's `_is_leap`. -/
def isLeap (y : Int) : Bool := y % 4 == 0 && (y % 100 != 0 || y % 400 == 0)

/-- Days in a month of a non-leap year (CPython `_DAYS_IN_MONTH`). -/
def daysInMonthTbl (m : Int) : Int :=
  if m = 2 then 28
  else if m = 4 ∨ m = 6 ∨ m = 9 ∨ m = 11 then 30
  else 31

/-- Days in a month (1-12), as in CPython's `_days_in_month`. -/
def daysInMonth (y m : Int) : Int :=
  daysInMonthTbl m + (if m = 2 ∧ isLeap y then 1 else 0)

/-- Cumulative days before month `m` in a non-leap year (CPython `_DAYS_BEFORE_MONTH`). -/
def daysBeforeMonthTbl (m : Int) : Int :=
  if m = 1 then 0 else if m = 2 then 31 else if m = 3 then 59
  else if m = 4 then 90 else if m = 5 then 120 else if m = 6 then 151
  else if m = 7 then 181 else if m = 8 then 212 else if m = 9 then 243
  else if m = 10 then 273 else if m = 11 then 304 else 334

/-- Days before month `m` of year `y` (CPython `_days_before_month`). -/
def daysBeforeMonth (y m : Int) : Int :=
  daysBeforeMonthTbl m + (if 2 < m ∧ isLeap y then 1 else 0)

/-- Days before January 1 of year `y` (CPython `_days_before_year`). -/
def daysBeforeYear (y : Int) : Int :=
  365 * (y - 1) + (y - 1) / 4 - (y - 1) / 100 + (y - 1) / 400

/-- Proleptic-Gregorian ordinal of a civil date (CPython `_ymd2ord`): 0001-01-01 is day 1. -/
def toOrd (y m d : Int) : Int := daysBeforeYear y + daysBeforeMonth y m + d

/-- Inverse of `toOrd` (CPython `_ord2ymd`). -/
def fromOrd (z : Int) : Int × Int × Int :=
  let n := z - 1
  let n400 := n / 146097
  let n := n % 146097
  let n100 := n / 36524
  let n := n % 36524
  let n4 := n / 1461
  let n := n % 1461
  let n1 := n / 365
  let n := n % 365
  let year := n400 * 400 + n100 * 100 + n4 * 4 + n1 + 1
  if n1 = 4 ∨ n100 = 4 then (year - 1, 12, 31)
  else
    let leap := n1 = 3 ∧ (n4 ≠ 24 ∨ n100 = 3)
    let month := (n + 50) / 32
    let preceding := daysBeforeMonthTbl month + (if 2 < month ∧ leap then 1 else 0)
    if n < preceding then
      (year, month - 1,
        n - (preceding - (daysInMonthTbl (month - 1) +
          (if month - 1 = 2 ∧ leap then 1 else 0))) + 1)
    else (year, month, n - preceding + 1)

def yearOf (z : Int) : Int := (fromOrd z).1
def monthOf (z : Int) : Int := (fromOrd z).2.1
def dayOf (z : Int) : Int := (fromOrd z).2.2

-- sanity checks
example : toOrd 1 1 1 = 1 := by decide
example : fromOrd 1 = (1, 1, 1) := by decide
example : toOrd 2018 3 1 = 736754 := by decide
example : fromOrd 736754 = (2018, 3, 1) := by decide
example : fromOrd (toOrd 2020 12 31) = (2020, 12, 31) := by decide
example : fromOrd (toOrd 2000 2 29) = (2000, 2, 29) := by decide
example : fromOrd (toOrd 1900 2 28) = (1900, 2, 28) := by decide
example : fromOrd (toOrd 2024 2 29) = (2024, 2, 29) := by decide
example : fromOrd (toOrd 2023 12 31) = (2023, 12, 31) := by decide
example : fromOrd (toOrd 2400 12 31) = (2400, 12, 31) := by decide
example : fromOrd (toOrd 2400 2 29) = (2400, 2, 29) := by decide
example : fromOrd (toOrd (-1) 2 28) = (-1, 2, 28) := by decide

theorem isLeap_iff (y : Int) :
    isLeap y = true ↔ (y % 4 = 0 ∧ (y % 100 ≠ 0 ∨ y % 400 = 0)) := by
  simp [isLeap]

theorem sub_one_1 : (1:Int) - 1 = 0 := by norm_num
theorem sub_one_2 : (2:Int) - 1 = 1 := by norm_num
theorem sub_one_3 : (3:Int) - 1 = 2 := by norm_num
theorem sub_one_4 : (4:Int) - 1 = 3 := by norm_num
theorem sub_one_5 : (5:Int) - 1 = 4 := by norm_num
theorem sub_one_6 : (6:Int) - 1 = 5 := by norm_num
theorem sub_one_7 : (7:Int) - 1 = 6 := by norm_num
theorem sub_one_8 : (8:Int) - 1 = 7 := by norm_num
theorem sub_one_9 : (9:Int) - 1 = 8 := by norm_num
theorem sub_one_10 : (10:Int) - 1 = 9 := by norm_num
theorem sub_one_11 : (11:Int) - 1 = 10 := by norm_num
theorem sub_one_12 : (12:Int) - 1 = 11 := by norm_num

theorem tblB_0 : daysBeforeMonthTbl 0 = 334 := by decide
theorem tblB_1 : daysBeforeMonthTbl 1 = 0 := by decide
theorem tblB_2 : daysBeforeMonthTbl 2 = 31 := by decide
theorem tblB_3 : daysBeforeMonthTbl 3 = 59 := by decide
theorem tblB_4 : daysBeforeMonthTbl 4 = 90 := by decide
theorem tblB_5 : daysBeforeMonthTbl 5 = 120 := by decide
theorem tblB_6 : daysBeforeMonthTbl 6 = 151 := by decide
theorem tblB_7 : daysBeforeMonthTbl 7 = 181 := by decide
theorem tblB_8 : daysBeforeMonthTbl 8 = 212 := by decide
theorem tblB_9 : daysBeforeMonthTbl 9 = 243 := by decide
theorem tblB_10 : daysBeforeMonthTbl 10 = 273 := by decide
theorem tblB_11 : daysBeforeMonthTbl 11 = 304 := by decide
theorem tblB_12 : daysBeforeMonthTbl 12 = 334 := by decide

theorem tblD_0 : daysInMonthTbl 0 = 31 := by decide
theorem tblD_1 : daysInMonthTbl 1 = 31 := by decide
theorem tblD_2 : daysInMonthTbl 2 = 28 := by decide
theorem tblD_3 : daysInMonthTbl 3 = 31 := by decide
theorem tblD_4 : daysInMonthTbl 4 = 30 := by decide
theorem tblD_5 : daysInMonthTbl 5 = 31 := by decide
theorem tblD_6 : daysInMonthTbl 6 = 30 := by decide
theorem tblD_7 : daysInMonthTbl 7 = 31 := by decide
theorem tblD_8 : daysInMonthTbl 8 = 31 := by decide
theorem tblD_9 : daysInMonthTbl 9 = 30 := by decide
theorem tblD_10 : daysInMonthTbl 10 = 31 := by decide
theorem tblD_11 : daysInMonthTbl 11 = 30 := by decide
theorem tblD_12 : daysInMonthTbl 12 = 31 := by decide

set_option maxHeartbeats 1600000 in
/-- `fromOrd` returns a valid civil triple, and `toOrd` maps it back to `z`. -/
theorem fromOrd_spec (z : Int) :
    1 ≤ monthOf z ∧ monthOf z ≤ 12 ∧ 1 ≤ dayOf z ∧
      dayOf z ≤ daysInMonth (yearOf z) (monthOf z) ∧
      toOrd (yearOf z) (monthOf z) (dayOf z) = z := by
  unfold yearOf monthOf dayOf
  simp only [fromOrd]
  have hA : 36524 * ((z-1) % 146097 / 36524) + 1461 * ((z-1) % 146097 % 36524 / 1461)
      + 365 * ((z-1) % 146097 % 36524 % 1461 / 365)
      + ((z-1) % 146097 % 36524 % 1461 % 365) ≤ 146096 := by omega
  have hB : 0 ≤ (z-1) % 146097 / 36524 := by omega
  have hC : 0 ≤ (z-1) % 146097 % 36524 / 1461 ∧
      1461 * ((z-1) % 146097 % 36524 / 1461) + 365 * ((z-1) % 146097 % 36524 % 1461 / 365)
      + ((z-1) % 146097 % 36524 % 1461 % 365) ≤ 36523 := by omega
  have hD : 0 ≤ (z-1) % 146097 % 36524 % 1461 / 365 ∧
      365 * ((z-1) % 146097 % 36524 % 1461 / 365)
      + ((z-1) % 146097 % 36524 % 1461 % 365) ≤ 1460 := by omega
  have hE : 0 ≤ (z-1) % 146097 % 36524 % 1461 % 365 ∧
      (z-1) % 146097 % 36524 % 1461 % 365 ≤ 364 := by omega
  have hz : z - 1 = 146097 * ((z-1) / 146097) + 36524 * ((z-1) % 146097 / 36524)
      + 1461 * ((z-1) % 146097 % 36524 / 1461) + 365 * ((z-1) % 146097 % 36524 % 1461 / 365)
      + ((z-1) % 146097 % 36524 % 1461 % 365) := by omega
  generalize hga : (z-1) / 146097 = a at *
  generalize hgb : (z-1) % 146097 / 36524 = b at *
  generalize hgc : (z-1) % 146097 % 36524 / 1461 = c at *
  generalize hgd : (z-1) % 146097 % 36524 % 1461 / 365 = d at *
  generalize hge : (z-1) % 146097 % 36524 % 1461 % 365 = e at *
  split
  case isTrue h =>
    dsimp only
    rcases h with h4 | h4
    · subst h4
      have hc23 : c ≤ 23 := by omega
      have hb3 : b ≤ 3 := by omega
      have m4 : (a * 400 + b * 100 + c * 4 + 4 + 1 - 1 - 1) / 4
          = a * 100 + b * 25 + c := by omega
      have m100 : (a * 400 + b * 100 + c * 4 + 4 + 1 - 1 - 1) / 100 = a * 4 + b := by omega
      have m400 : (a * 400 + b * 100 + c * 4 + 4 + 1 - 1 - 1) / 400 = a := by omega
      have p4 : (a * 400 + b * 100 + c * 4 + 4 + 1 - 1) % 4 = 0 := by omega
      have p100 : (a * 400 + b * 100 + c * 4 + 4 + 1 - 1) % 100 = c * 4 + 4 := by omega
      have p400 : (a * 400 + b * 100 + c * 4 + 4 + 1 - 1) % 400
          = b * 100 + c * 4 + 4 := by omega
      simp only [toOrd, daysBeforeYear, daysBeforeMonth, daysBeforeMonthTbl,
        daysInMonth, daysInMonthTbl, isLeap_iff] at *
      omega
    · subst h4
      have hc0 : c = 0 := by omega
      have hd0 : d = 0 := by omega
      have he0 : e = 0 := by omega
      subst hc0; subst hd0
      have m4 : (a * 400 + 4 * 100 + 0 * 4 + 0 + 1 - 1 - 1) / 4 = a * 100 + 99 := by omega
      have m100 : (a * 400 + 4 * 100 + 0 * 4 + 0 + 1 - 1 - 1) / 100 = a * 4 + 3 := by omega
      have m400 : (a * 400 + 4 * 100 + 0 * 4 + 0 + 1 - 1 - 1) / 400 = a := by omega
      have p4 : (a * 400 + 4 * 100 + 0 * 4 + 0 + 1 - 1) % 4 = 0 := by omega
      have p100 : (a * 400 + 4 * 100 + 0 * 4 + 0 + 1 - 1) % 100 = 0 := by omega
      have p400 : (a * 400 + 4 * 100 + 0 * 4 + 0 + 1 - 1) % 400 = 0 := by omega
      simp only [toOrd, daysBeforeYear, daysBeforeMonth, daysBeforeMonthTbl,
        daysInMonth, daysInMonthTbl, isLeap_iff] at *
      omega
  case isFalse h =>
    have hd3 : d ≤ 3 := by omega
    have hb3 : b ≤ 3 := by omega
    have q4 : (a * 400 + b * 100 + c * 4 + d + 1 - 1) / 4 = a * 100 + b * 25 + c := by
      omega
    have q100 : (a * 400 + b * 100 + c * 4 + d + 1 - 1) / 100 = a * 4 + b := by omega
    have q400 : (a * 400 + b * 100 + c * 4 + d + 1 - 1) / 400 = a := by omega
    have hc24 : c ≤ 24 := by omega
    have hLI : isLeap (a * 400 + b * 100 + c * 4 + d + 1) = true
        ↔ (d = 3 ∧ (c ≠ 24 ∨ b = 3)) := by
      rw [isLeap_iff]
      have r4 : (a * 400 + b * 100 + c * 4 + d + 1) % 4 = (c * 4 + d + 1) % 4 := by
        omega
      have r100 : (a * 400 + b * 100 + c * 4 + d + 1) % 100
          = (c * 4 + d + 1) % 100 := by omega
      have r400 : (a * 400 + b * 100 + c * 4 + d + 1) % 400
          = (b * 100 + c * 4 + d + 1) % 400 := by omega
      rw [r4, r100, r400]
      omega
    have hM1 : 1 ≤ (e + 50) / 32 := by omega
    have hM2 : (e + 50) / 32 ≤ 12 := by omega
    set M := (e + 50) / 32 with hM
    clear_value M
    interval_cases M <;>
      (simp only [sub_one_1, sub_one_2, sub_one_3, sub_one_4, sub_one_5, sub_one_6,
         sub_one_7, sub_one_8, sub_one_9, sub_one_10, sub_one_11, sub_one_12,
         tblB_0, tblB_1, tblB_2, tblB_3, tblB_4, tblB_5, tblB_6, tblB_7, tblB_8,
         tblB_9, tblB_10, tblB_11, tblB_12, tblD_0, tblD_1, tblD_2, tblD_3, tblD_4,
         tblD_5, tblD_6, tblD_7, tblD_8, tblD_9, tblD_10, tblD_11, tblD_12,
         true_and, and_true, if_true, if_false]
       repeat' split
       all_goals
         (dsimp only
          simp only [toOrd, daysBeforeYear, daysBeforeMonth, daysInMonth,
            daysBeforeMonthTbl, daysInMonthTbl, hLI, true_and, and_true,
            if_true, if_false, sub_one_1, sub_one_2, sub_one_3, sub_one_4, sub_one_5, sub_one_6,
            sub_one_7, sub_one_8, sub_one_9, sub_one_10, sub_one_11, sub_one_12]
          simp only [q4, q100, q400]
          omega))

/-- Year of the month preceding month `m` of year `y`. -/
def prevY (y m : Int) : Int := if m = 1 then y - 1 else y

/-- The month preceding month `m`. -/
def prevM (m : Int) : Int := if m = 1 then 12 else m - 1

/-- Year of the month following month `m` of year `y`. -/
def nextY (y m : Int) : Int := if m = 12 then y + 1 else y

/-- The month following month `m`. -/
def nextM (m : Int) : Int := if m = 12 then 1 else m + 1

theorem daysInMonth_bounds (y m : Int) :
    28 ≤ daysInMonth y m ∧ daysInMonth y m ≤ 31 := by
  simp only [daysInMonth, daysInMonthTbl, isLeap_iff]
  omega

theorem toOrd_day (y m d : Int) : toOrd y m d = toOrd y m 1 + (d - 1) := by
  simp only [toOrd]
  omega

theorem not_two_lt_one : ((2:Int) < 1) = False := by norm_num

theorem dby_add_one (y : Int) :
    daysBeforeYear (y + 1) = daysBeforeYear y + 365 + (if isLeap y = true then 1 else 0) := by
  have s4 : (y + 1 - 1) / 4 - (y - 1) / 4 = (if y % 4 = 0 then 1 else 0) := by omega
  have s100 : (y + 1 - 1) / 100 - (y - 1) / 100 = (if y % 100 = 0 then 1 else 0) := by
    omega
  have s400 : (y + 1 - 1) / 400 - (y - 1) / 400 = (if y % 400 = 0 then 1 else 0) := by
    omega
  simp only [daysBeforeYear, isLeap_iff]
  omega

set_option maxHeartbeats 1000000 in
theorem toOrd_prev (y m : Int) (h1 : 1 ≤ m) (h2 : m ≤ 12) :
    toOrd (prevY y m) (prevM m) (daysInMonth (prevY y m) (prevM m)) + 1
      = toOrd y m 1 := by
  rcases eq_or_ne m 1 with hm | hm
  · subst hm
    simp only [prevY, prevM, if_true]
    have hstep := dby_add_one (y - 1)
    have harg : y - 1 + 1 = y := by ring
    rw [harg] at hstep
    by_cases hL : isLeap (y - 1) = true <;>
      (simp only [toOrd, daysBeforeMonth, daysBeforeMonthTbl, daysInMonth,
        daysInMonthTbl, hL, true_and, and_true, false_and, and_false,
        if_true, if_false, Bool.false_eq_true, not_two_lt_one] at hstep ⊢
       omega)
  · simp only [prevY, prevM, if_neg hm]
    by_cases hL : isLeap y = true <;>
      (simp only [toOrd, daysBeforeMonth, daysBeforeMonthTbl, daysInMonth,
        daysInMonthTbl, hL, true_and, and_true, false_and, and_false,
        if_true, if_false, Bool.false_eq_true, not_two_lt_one]
       omega)

set_option maxHeartbeats 1000000 in
theorem toOrd_next (y m : Int) (h1 : 1 ≤ m) (h2 : m ≤ 12) :
    toOrd y m (daysInMonth y m) + 1 = toOrd (nextY y m) (nextM m) 1 := by
  rcases eq_or_ne m 12 with hm | hm
  · subst hm
    simp only [nextY, nextM, if_true]
    have hstep := dby_add_one y
    by_cases hL : isLeap y = true <;>
      (simp only [toOrd, daysBeforeMonth, daysBeforeMonthTbl, daysInMonth,
        daysInMonthTbl, hL, true_and, and_true, false_and, and_false,
        if_true, if_false, Bool.false_eq_true, not_two_lt_one] at hstep ⊢
       omega)
  · simp only [nextY, nextM, if_neg hm]
    by_cases hL : isLeap y = true <;>
      (simp only [toOrd, daysBeforeMonth, daysBeforeMonthTbl, daysInMonth,
        daysInMonthTbl, hL, true_and, and_true, false_and, and_false,
        if_true, if_false, Bool.false_eq_true, not_two_lt_one]
       omega)

theorem dby_succ (y : Int) :
    daysBeforeYear y + 365 ≤ daysBeforeYear (y + 1) ∧
      daysBeforeYear (y + 1) ≤ daysBeforeYear y + 366 := by
  simp only [daysBeforeYear]
  omega

theorem dby_mono : ∀ {y1 y2 : Int}, y1 ≤ y2 → daysBeforeYear y1 ≤ daysBeforeYear y2 := by
  have h : StrictMono daysBeforeYear := by
    apply strictMono_int_of_lt_succ
    intro n
    have := dby_succ n
    omega
  intro y1 y2 hle
  exact h.monotone hle

set_option maxHeartbeats 1000000 in
theorem toOrd_bracket (y m d : Int) (h1 : 1 ≤ m) (h2 : m ≤ 12) (h3 : 1 ≤ d)
    (h4 : d ≤ daysInMonth y m) :
    daysBeforeYear y + 1 ≤ toOrd y m d ∧ toOrd y m d ≤ daysBeforeYear (y + 1) := by
  have hstep := dby_add_one y
  by_cases hL : isLeap y = true <;>
    (simp only [toOrd, daysBeforeMonth, daysBeforeMonthTbl, daysInMonth,
      daysInMonthTbl, hL, true_and, and_true, false_and, and_false,
      if_true, if_false, Bool.false_eq_true, not_two_lt_one] at hstep h4 ⊢
     omega)

theorem tblB_formula (m : Int) (h1 : 1 ≤ m) (h2 : m ≤ 12) :
    daysBeforeMonthTbl m = (367 * m - 362) / 12 - (if m ≤ 2 then 0 else 2) := by
  interval_cases m <;> decide

theorem tblD_formula (m : Int) (h1 : 1 ≤ m) (h2 : m ≤ 12) :
    daysInMonthTbl m = (367 * (m + 1) - 362) / 12 - (367 * m - 362) / 12
      - (if m = 2 then 2 else 0) := by
  interval_cases m <;> decide

set_option maxHeartbeats 1600000 in
theorem monthday_inj (y m d m' d' : Int) (h1 : 1 ≤ m) (h2 : m ≤ 12) (h3 : 1 ≤ d)
    (h4 : d ≤ daysInMonth y m) (h1' : 1 ≤ m') (h2' : m' ≤ 12) (h3' : 1 ≤ d')
    (h4' : d' ≤ daysInMonth y m')
    (heq : daysBeforeMonth y m + d = daysBeforeMonth y m' + d') :
    m = m' ∧ d = d' := by
  by_cases hL : isLeap y = true <;>
    (simp only [daysBeforeMonth, daysInMonth, hL,
       true_and, and_true, false_and, and_false, if_true, if_false,
       Bool.false_eq_true] at heq h4 h4'
     rw [tblB_formula m h1 h2, tblB_formula m' h1' h2'] at heq
     rw [tblD_formula m h1 h2] at h4
     rw [tblD_formula m' h1' h2'] at h4'
     have k1 : m < m' → (367 * (m + 1) - 362) / 12 ≤ (367 * m' - 362) / 12 := by
       omega
     have k2 : m' < m → (367 * (m' + 1) - 362) / 12 ≤ (367 * m - 362) / 12 := by
       omega
     omega)

set_option maxHeartbeats 1000000 in
/-- `fromOrd` is characterised as the inverse of `toOrd` on valid civil triples. -/
theorem fromOrd_eq_of (z y m d : Int) (h1 : 1 ≤ m) (h2 : m ≤ 12) (h3 : 1 ≤ d)
    (h4 : d ≤ daysInMonth y m) (heq : toOrd y m d = z) :
    fromOrd z = (y, m, d) := by
  obtain ⟨g1, g2, g3, g4, g5⟩ := fromOrd_spec z
  have hy : yearOf z = y := by
    have b1 := toOrd_bracket (yearOf z) (monthOf z) (dayOf z) g1 g2 g3 g4
    have b2 := toOrd_bracket y m d h1 h2 h3 h4
    rw [g5] at b1
    rw [heq] at b2
    by_contra hne
    rcases lt_or_gt_of_ne hne with hlt | hlt
    · have := dby_mono (by omega : yearOf z + 1 ≤ y)
      omega
    · have := dby_mono (by omega : y + 1 ≤ yearOf z)
      omega
  rw [hy] at g4 g5
  have hmd : monthOf z = m ∧ dayOf z = d := by
    apply monthday_inj y (monthOf z) (dayOf z) m d g1 g2 g3 g4 h1 h2 h3 h4
    have hto : toOrd y (monthOf z) (dayOf z) = toOrd y m d := by rw [g5, heq]
    simp only [toOrd] at hto
    omega
  have hfo : fromOrd z = (yearOf z, monthOf z, dayOf z) := rfl
  rw [hfo, hy, hmd.1, hmd.2]

/-- Python `date.weekday` (Monday = 0) of the date whose proleptic ordinal is `z`.
Ordinal 1, i.e. 0001-01-01, is a Monday. -/
def weekday (z : Int) : Int := (z + 6) % 7

/-- `strftime("%m")`: the month number rendered as a two-digit zero-padded string. -/
def pad2 (m : Int) : String := if m < 10 then "0" ++ toString m else toString m

/-- `strftime("%m월")` applied to the date whose ordinal is `z`. -/
def fmtM (z : Int) : String := pad2 (monthOf z) ++ "월"

/-- Python `date.replace(day=1)` on ordinals. -/
def firstOfMonth (z : Int) : Int := toOrd (yearOf z) (monthOf z) 1

theorem monthOf_bounds (z : Int) : 1 ≤ monthOf z ∧ monthOf z ≤ 12 :=
  ⟨(fromOrd_spec z).1, (fromOrd_spec z).2.1⟩

theorem ord_in_month (z : Int) :
    toOrd (yearOf z) (monthOf z) 1 ≤ z ∧
      z ≤ toOrd (yearOf z) (monthOf z) 1 + daysInMonth (yearOf z) (monthOf z) - 1 := by
  obtain ⟨g1, g2, g3, g4, g5⟩ := fromOrd_spec z
  have hd := toOrd_day (yearOf z) (monthOf z) (dayOf z)
  omega

theorem prevM_bounds (m : Int) (h1 : 1 ≤ m) (h2 : m ≤ 12) :
    1 ≤ prevM m ∧ prevM m ≤ 12 := by
  simp only [prevM]; split <;> omega

theorem nextM_bounds (m : Int) (h1 : 1 ≤ m) (h2 : m ≤ 12) :
    1 ≤ nextM m ∧ nextM m ≤ 12 := by
  simp only [nextM]; split <;> omega

theorem fromOrd_first (y m : Int) (h1 : 1 ≤ m) (h2 : m ≤ 12) :
    fromOrd (toOrd y m 1) = (y, m, 1) :=
  fromOrd_eq_of _ y m 1 h1 h2 (by omega)
    (by have := daysInMonth_bounds y m; omega) rfl

theorem fromOrd_prev_last (y m : Int) (h1 : 1 ≤ m) (h2 : m ≤ 12) :
    fromOrd (toOrd y m 1 - 1)
      = (prevY y m, prevM m, daysInMonth (prevY y m) (prevM m)) := by
  have hb := daysInMonth_bounds (prevY y m) (prevM m)
  have hpm := prevM_bounds m h1 h2
  have hprev := toOrd_prev y m h1 h2
  exact fromOrd_eq_of _ _ _ _ hpm.1 hpm.2 (by omega) le_rfl (by omega)

theorem fromOrd_plus32 (y m : Int) (h1 : 1 ≤ m) (h2 : m ≤ 12) :
    fromOrd (toOrd y m 1 + 32) = (nextY y m, nextM m, 33 - daysInMonth y m) := by
  have hb := daysInMonth_bounds y m
  have hbn := daysInMonth_bounds (nextY y m) (nextM m)
  have hnm := nextM_bounds m h1 h2
  have hnext := toOrd_next y m h1 h2
  have hd1 := toOrd_day y m (daysInMonth y m)
  have hd2 := toOrd_day (nextY y m) (nextM m) (33 - daysInMonth y m)
  exact fromOrd_eq_of _ _ _ _ hnm.1 hnm.2 (by omega) (by omega) (by omega)

end Cal

namespace Helper

open Cal

/-- The locals of `helper.get_week_and_month_label` (src/helper.py, lines 52-92),
factored as named functions of the input date. Dates are represented by their
proleptic-Gregorian ordinals (`Cal.toOrd`); Python date comparison, subtraction and
`timedelta` addition are ordinal comparison and `Int` arithmetic, `date.replace(day=1)`
is `Cal.firstOfMonth`, `date.weekday()` is `Cal.weekday`, and `strftime("%m월")` is
`Cal.fmtM`. -/
def first_day_of_month (z : Int) : Int := firstOfMonth z

/-- `(2 - first_day_of_month.weekday() + 7) % 7` (helper.py line 57). -/
def days_until_first_wed (z : Int) : Int :=
  (2 - weekday (first_day_of_month z) + 7) % 7

/-- `first_day_of_month + timedelta(days=days_until_first_wed)` (line 58). -/
def first_wed (z : Int) : Int := first_day_of_month z + days_until_first_wed z

/-- `first_wed - timedelta(days=(first_wed.weekday() - 0))` (line 59). -/
def monday_of_first_week (z : Int) : Int :=
  first_wed z - (weekday (first_wed z) - 0)

/-- `first_day_of_month - timedelta(days=1)` (line 61). -/
def last_day_of_prev_month (z : Int) : Int := first_day_of_month z - 1

/-- `last_day_of_prev_month.replace(day=1)` (line 62). -/
def first_day_of_prev_month (z : Int) : Int := firstOfMonth (last_day_of_prev_month z)

/-- `(2 - first_day_of_prev_month.weekday() + 7) % 7` (line 63). -/
def days_until_first_wed_prev (z : Int) : Int :=
  (2 - weekday (first_day_of_prev_month z) + 7) % 7

/-- `first_day_of_prev_month + timedelta(days=days_until_first_wed_prev)` (line 64). -/
def first_wed_prev (z : Int) : Int :=
  first_day_of_prev_month z + days_until_first_wed_prev z

/-- `last_day_of_prev_month - timedelta(days=(last_day_of_prev_month.weekday() - 2) % 7)`
(line 65). -/
def last_wed_prev (z : Int) : Int :=
  last_day_of_prev_month z - (weekday (last_day_of_prev_month z) - 2) % 7

/-- `((last_wed_prev - first_wed_prev).days // 7) + 1` (line 66). -/
def weeks_in_prev_month (z : Int) : Int := (last_wed_prev z - first_wed_prev z) / 7 + 1

/-- `(first_day_of_month + timedelta(days=32)).replace(day=1) - timedelta(days=1)`
(line 71). -/
def last_day_of_month (z : Int) : Int := firstOfMonth (first_day_of_month z + 32) - 1

/-- `last_day_of_month - timedelta(days=(last_day_of_month.weekday() - 2) % 7)` (line 72). -/
def last_wed_of_month (z : Int) : Int :=
  last_day_of_month z - (weekday (last_day_of_month z) - 2) % 7

/-- `last_wed_of_month - timedelta(days=(last_wed_of_month.weekday() - 0))` (line 73). -/
def monday_of_last_week (z : Int) : Int :=
  last_wed_of_month z - (weekday (last_wed_of_month z) - 0)

/-- `((last_wed_of_month - first_wed).days // 7) + 1` (line 74). -/
def weeks_in_month (z : Int) : Int := (last_wed_of_month z - first_wed z) / 7 + 1

/-- `(first_day_of_month + timedelta(days=32)).replace(day=1)` (line 80). -/
def next_month (z : Int) : Int := firstOfMonth (first_day_of_month z + 32)

/-- `(2 - next_month.weekday() + 7) % 7` (line 81). -/
def days_until_first_wed_next (z : Int) : Int :=
  (2 - weekday (next_month z) + 7) % 7

/-- `next_month + timedelta(days=days_until_first_wed_next)` (line 82). -/
def first_wed_next (z : Int) : Int := next_month z + days_until_first_wed_next z

/-- `first_wed_next - timedelta(days=(first_wed_next.weekday() - 0))` (line 83). -/
def monday_of_first_week_next (z : Int) : Int :=
  first_wed_next z - (weekday (first_wed_next z) - 0)

/-- `((date_obj - monday_of_first_week).days // 7) + 1` (line 89). -/
def week_number (z : Int) : Int := (z - monday_of_first_week z) / 7 + 1

/-- Transcription of `helper.get_week_and_month_label` (src/helper.py, lines 52-92).
The two nested `if`s of the spillover branch (lines 60 and 67) are flattened into
one conjunction: the Python code returns inside the inner `if` and otherwise falls
through, which is exactly this `if`-chain. -/
def get_week_and_month_label (z : Int) : String × String :=
  if z < monday_of_first_week z ∧ 5 ≤ weeks_in_prev_month z then
    ("5주차", fmtM (first_day_of_prev_month z))
  else if monday_of_last_week z ≤ z ∧ 5 ≤ weeks_in_month z then
    ("5주차", fmtM (first_day_of_month z))
  else if monday_of_first_week_next z ≤ z ∧ z < monday_of_first_week_next z + 7 then
    ("1주차", fmtM (next_month z))
  else
    (toString (week_number z) ++ "주차", fmtM (first_day_of_month z))

end Helper

namespace FiscalSpec

open Cal

/-- The first Wednesday on or after the 1st of calendar month `(y, m)` (spec §4.1 step 1). -/
def firstWed (y m : Int) : Int :=
  toOrd y m 1 + (2 - weekday (toOrd y m 1)) % 7

/-- The fiscal Monday of month `(y, m)`: the Monday of the week containing `firstWed`. -/
def fiscalMonday (y m : Int) : Int := firstWed y m - weekday (firstWed y m)

/-- The last Wednesday on or before the last day of month `(y, m)`. -/
def lastWed (y m : Int) : Int :=
  toOrd y m (daysInMonth y m) - (weekday (toOrd y m (daysInMonth y m)) - 2) % 7

/-- The Monday of the week containing the month's last Wednesday. -/
def mondayOfLastWeek (y m : Int) : Int := lastWed y m - weekday (lastWed y m)

/-- The fiscal week count of month `(y, m)`. -/
def weeksIn (y m : Int) : Int := (lastWed y m - firstWed y m) / 7 + 1

/-- The spec's month label: two-digit month number followed by the 월 suffix. -/
def monthLabel (m : Int) : String := pad2 m ++ "월"

/-- The five-step precedence cascade of spec §4.1, written from the claim text:
step 2 (spillover to previous month), step 3 (last-week overflow), step 4
(pull-forward into next month), step 5 (default week number). -/
def resolve (z : Int) : String × String :=
  let y := yearOf z
  let m := monthOf z
  if z < fiscalMonday y m ∧ 5 ≤ weeksIn (prevY y m) (prevM m) then
    ("5주차", monthLabel (prevM m))
  else if mondayOfLastWeek y m ≤ z ∧ 5 ≤ weeksIn y m then
    ("5주차", monthLabel m)
  else if fiscalMonday (nextY y m) (nextM m) ≤ z ∧
      z < fiscalMonday (nextY y m) (nextM m) + 7 then
    ("1주차", monthLabel (nextM m))
  else
    (toString ((z - fiscalMonday y m) / 7 + 1) ++ "주차", monthLabel m)

end FiscalSpec

-- Sanity checks of the fiscal function against concrete dates
-- (ordinals computed via Cal.toOrd; expected labels from the Python algorithm).
example : Helper.get_week_and_month_label (Cal.toOrd 2018 3 1) = ("0주차", "03월") := by
  decide
example : Helper.get_week_and_month_label (Cal.toOrd 2025 8 28) = ("4주차", "08월") := by
  decide
example : Helper.get_week_and_month_label (Cal.toOrd 2025 8 1) = ("5주차", "07월") := by
  decide
example : Helper.get_week_and_month_label (Cal.toOrd 2026 1 1) = ("5주차", "12월") := by
  decide
example : Helper.get_week_and_month_label (Cal.toOrd 2024 12 30) = ("1주차", "01월") := by
  decide
example : Helper.get_week_and_month_label (Cal.toOrd 2020 1 1) = ("1주차", "01월") := by
  decide
example : FiscalSpec.resolve (Cal.toOrd 2018 3 1) = ("0주차", "03월") := by decide
example : FiscalSpec.resolve (Cal.toOrd 2025 8 1) = ("5주차", "07월") := by decide
example : FiscalSpec.resolve (Cal.toOrd 2024 12 30) = ("1주차", "01월") := by decide

open Cal in
theorem monday_of_first_week_eq (z : Int) :
    Helper.monday_of_first_week z
      = FiscalSpec.fiscalMonday (yearOf z) (monthOf z) := by
  simp only [Helper.monday_of_first_week, Helper.first_wed, Helper.days_until_first_wed,
    Helper.first_day_of_month, Cal.firstOfMonth, FiscalSpec.fiscalMonday,
    FiscalSpec.firstWed, Cal.weekday]
  omega

open Cal in
theorem weeks_in_prev_month_eq (z : Int) :
    Helper.weeks_in_prev_month z
      = FiscalSpec.weeksIn (prevY (yearOf z) (monthOf z)) (prevM (monthOf z)) := by
  have hm := monthOf_bounds z
  have hprev := fromOrd_prev_last (yearOf z) (monthOf z) hm.1 hm.2
  have hyp : yearOf (toOrd (yearOf z) (monthOf z) 1 - 1)
      = prevY (yearOf z) (monthOf z) := congrArg Prod.fst hprev
  have hmp : monthOf (toOrd (yearOf z) (monthOf z) 1 - 1)
      = prevM (monthOf z) := congrArg (fun p => p.2.1) hprev
  have htp := toOrd_prev (yearOf z) (monthOf z) hm.1 hm.2
  have htd := toOrd_day (prevY (yearOf z) (monthOf z)) (prevM (monthOf z))
    (daysInMonth (prevY (yearOf z) (monthOf z)) (prevM (monthOf z)))
  simp only [Helper.weeks_in_prev_month, Helper.last_wed_prev, Helper.first_wed_prev,
    Helper.days_until_first_wed_prev, Helper.first_day_of_prev_month,
    Helper.last_day_of_prev_month, Helper.first_day_of_month, Cal.firstOfMonth,
    FiscalSpec.weeksIn, FiscalSpec.lastWed, FiscalSpec.firstWed, Cal.weekday]
  rw [hyp, hmp]
  omega

open Cal in
theorem fmtM_prev_eq (z : Int) :
    Cal.fmtM (Helper.first_day_of_prev_month z)
      = FiscalSpec.monthLabel (prevM (monthOf z)) := by
  have hm := monthOf_bounds z
  have hpmb := prevM_bounds (monthOf z) hm.1 hm.2
  have hprev := fromOrd_prev_last (yearOf z) (monthOf z) hm.1 hm.2
  have hyp : yearOf (toOrd (yearOf z) (monthOf z) 1 - 1)
      = prevY (yearOf z) (monthOf z) := congrArg Prod.fst hprev
  have hmp : monthOf (toOrd (yearOf z) (monthOf z) 1 - 1)
      = prevM (monthOf z) := congrArg (fun p => p.2.1) hprev
  have hf := fromOrd_first (prevY (yearOf z) (monthOf z)) (prevM (monthOf z))
    hpmb.1 hpmb.2
  have hfm : monthOf (toOrd (prevY (yearOf z) (monthOf z)) (prevM (monthOf z)) 1)
      = prevM (monthOf z) := congrArg (fun p => p.2.1) hf
  simp only [Helper.first_day_of_prev_month, Helper.last_day_of_prev_month,
    Helper.first_day_of_month, Cal.firstOfMonth, Cal.fmtM, FiscalSpec.monthLabel]
  rw [hyp, hmp, hfm]

open Cal in
theorem monday_of_last_week_eq (z : Int) :
    Helper.monday_of_last_week z
      = FiscalSpec.mondayOfLastWeek (yearOf z) (monthOf z) := by
  have hm := monthOf_bounds z
  have hnext := fromOrd_plus32 (yearOf z) (monthOf z) hm.1 hm.2
  have hyn : yearOf (toOrd (yearOf z) (monthOf z) 1 + 32)
      = nextY (yearOf z) (monthOf z) := congrArg Prod.fst hnext
  have hmn : monthOf (toOrd (yearOf z) (monthOf z) 1 + 32)
      = nextM (monthOf z) := congrArg (fun p => p.2.1) hnext
  have htn := toOrd_next (yearOf z) (monthOf z) hm.1 hm.2
  have htd := toOrd_day (yearOf z) (monthOf z) (daysInMonth (yearOf z) (monthOf z))
  simp only [Helper.monday_of_last_week, Helper.last_wed_of_month,
    Helper.last_day_of_month, Helper.first_day_of_month, Cal.firstOfMonth,
    FiscalSpec.mondayOfLastWeek, FiscalSpec.lastWed, Cal.weekday]
  rw [hyn, hmn]
  omega

open Cal in
theorem weeks_in_month_eq (z : Int) :
    Helper.weeks_in_month z = FiscalSpec.weeksIn (yearOf z) (monthOf z) := by
  have hm := monthOf_bounds z
  have hnext := fromOrd_plus32 (yearOf z) (monthOf z) hm.1 hm.2
  have hyn : yearOf (toOrd (yearOf z) (monthOf z) 1 + 32)
      = nextY (yearOf z) (monthOf z) := congrArg Prod.fst hnext
  have hmn : monthOf (toOrd (yearOf z) (monthOf z) 1 + 32)
      = nextM (monthOf z) := congrArg (fun p => p.2.1) hnext
  have htn := toOrd_next (yearOf z) (monthOf z) hm.1 hm.2
  have htd := toOrd_day (yearOf z) (monthOf z) (daysInMonth (yearOf z) (monthOf z))
  simp only [Helper.weeks_in_month, Helper.last_wed_of_month, Helper.last_day_of_month,
    Helper.first_wed, Helper.days_until_first_wed, Helper.first_day_of_month,
    Cal.firstOfMonth, FiscalSpec.weeksIn, FiscalSpec.lastWed, FiscalSpec.firstWed,
    Cal.weekday]
  rw [hyn, hmn]
  omega

open Cal in
theorem fmtM_cur_eq (z : Int) :
    Cal.fmtM (Helper.first_day_of_month z) = FiscalSpec.monthLabel (monthOf z) := by
  have hm := monthOf_bounds z
  have hf := fromOrd_first (yearOf z) (monthOf z) hm.1 hm.2
  have hfm : monthOf (toOrd (yearOf z) (monthOf z) 1) = monthOf z :=
    congrArg (fun p => p.2.1) hf
  simp only [Helper.first_day_of_month, Cal.firstOfMonth, Cal.fmtM,
    FiscalSpec.monthLabel]
  rw [hfm]

open Cal in
theorem monday_of_first_week_next_eq (z : Int) :
    Helper.monday_of_first_week_next z
      = FiscalSpec.fiscalMonday (nextY (yearOf z) (monthOf z)) (nextM (monthOf z)) := by
  have hm := monthOf_bounds z
  have hnext := fromOrd_plus32 (yearOf z) (monthOf z) hm.1 hm.2
  have hyn : yearOf (toOrd (yearOf z) (monthOf z) 1 + 32)
      = nextY (yearOf z) (monthOf z) := congrArg Prod.fst hnext
  have hmn : monthOf (toOrd (yearOf z) (monthOf z) 1 + 32)
      = nextM (monthOf z) := congrArg (fun p => p.2.1) hnext
  simp only [Helper.monday_of_first_week_next, Helper.first_wed_next,
    Helper.days_until_first_wed_next, Helper.next_month, Helper.first_day_of_month,
    Cal.firstOfMonth, FiscalSpec.fiscalMonday, FiscalSpec.firstWed, Cal.weekday]
  rw [hyn, hmn]
  omega

open Cal in
theorem fmtM_next_eq (z : Int) :
    Cal.fmtM (Helper.next_month z) = FiscalSpec.monthLabel (nextM (monthOf z)) := by
  have hm := monthOf_bounds z
  have hnmb := nextM_bounds (monthOf z) hm.1 hm.2
  have hnext := fromOrd_plus32 (yearOf z) (monthOf z) hm.1 hm.2
  have hyn : yearOf (toOrd (yearOf z) (monthOf z) 1 + 32)
      = nextY (yearOf z) (monthOf z) := congrArg Prod.fst hnext
  have hmn : monthOf (toOrd (yearOf z) (monthOf z) 1 + 32)
      = nextM (monthOf z) := congrArg (fun p => p.2.1) hnext
  have hf := fromOrd_first (nextY (yearOf z) (monthOf z)) (nextM (monthOf z))
    hnmb.1 hnmb.2
  have hfm : monthOf (toOrd (nextY (yearOf z) (monthOf z)) (nextM (monthOf z)) 1)
      = nextM (monthOf z) := congrArg (fun p => p.2.1) hf
  simp only [Helper.next_month, Helper.first_day_of_month, Cal.firstOfMonth,
    Cal.fmtM, FiscalSpec.monthLabel]
  rw [hyn, hmn, hfm]

open Cal in
theorem week_number_eq (z : Int) :
    Helper.week_number z
      = (z - FiscalSpec.fiscalMonday (yearOf z) (monthOf z)) / 7 + 1 := by
  simp only [Helper.week_number]
  rw [monday_of_first_week_eq]

/-- The transcription of `get_week_and_month_label` agrees with the spec-side cascade
`FiscalSpec.resolve` on every ordinal. -/
theorem gw_eq_resolve (z : Int) :
    Helper.get_week_and_month_label z = FiscalSpec.resolve z := by
  simp only [Helper.get_week_and_month_label, FiscalSpec.resolve]
  rw [monday_of_first_week_eq, weeks_in_prev_month_eq, fmtM_prev_eq,
    monday_of_last_week_eq, weeks_in_month_eq, fmtM_cur_eq,
    monday_of_first_week_next_eq, fmtM_next_eq, week_number_eq]

namespace FiscalSpec

open Cal

theorem weekday_firstWed (y m : Int) : Cal.weekday (firstWed y m) = 2 := by
  simp only [firstWed, Cal.weekday]
  omega

theorem weekday_lastWed (y m : Int) : Cal.weekday (lastWed y m) = 2 := by
  simp only [lastWed, Cal.weekday]
  omega

theorem firstWed_bounds (y m : Int) :
    toOrd y m 1 ≤ firstWed y m ∧ firstWed y m ≤ toOrd y m 1 + 6 := by
  simp only [firstWed, Cal.weekday]
  omega

theorem lastWed_bounds (y m : Int) :
    toOrd y m (daysInMonth y m) - 6 ≤ lastWed y m
      ∧ lastWed y m ≤ toOrd y m (daysInMonth y m) := by
  simp only [lastWed, Cal.weekday]
  omega

theorem fiscalMonday_eq (y m : Int) : fiscalMonday y m = firstWed y m - 2 := by
  rw [fiscalMonday, weekday_firstWed]

theorem mondayOfLastWeek_eq (y m : Int) :
    mondayOfLastWeek y m = lastWed y m - 2 := by
  rw [mondayOfLastWeek, weekday_lastWed]

/-- The next month's first Wednesday is one week after this month's last Wednesday. -/
theorem firstWed_succ (y m : Int) (h1 : 1 ≤ m) (h2 : m ≤ 12) :
    firstWed (nextY y m) (nextM m) = lastWed y m + 7 := by
  have htn := toOrd_next y m h1 h2
  have htd := toOrd_day y m (daysInMonth y m)
  have hD := daysInMonth_bounds y m
  simp only [firstWed, lastWed, Cal.weekday]
  omega

/-- The start of the fiscal span of month `(y, m)` (amendment of spec §4.3's
coverage property): the month's fiscal Monday when the previous month has a
5th fiscal week, else whichever of the civil first-of-month and the fiscal
Monday comes first. -/
def spanStart (y m : Int) : Int :=
  if 5 ≤ weeksIn (prevY y m) (prevM m) then max (toOrd y m 1) (fiscalMonday y m)
  else min (toOrd y m 1) (fiscalMonday y m)

theorem spanStart_bounds (y m : Int) :
    toOrd y m 1 - 2 ≤ spanStart y m ∧ spanStart y m ≤ toOrd y m 1 + 4 := by
  have hfm := fiscalMonday_eq y m
  have hfwb := firstWed_bounds y m
  simp only [spanStart]
  split_ifs <;> omega

end FiscalSpec

open Cal in
theorem next_of_prev (y m : Int) (h1 : 1 ≤ m) (h2 : m ≤ 12) :
    nextY (prevY y m) (prevM m) = y ∧ nextM (prevM m) = m := by
  simp only [Cal.nextY, Cal.nextM, Cal.prevY, Cal.prevM]
  omega

open Cal in
theorem prev_of_next (y m : Int) (h1 : 1 ≤ m) (h2 : m ≤ 12) :
    prevY (nextY y m) (nextM m) = y ∧ prevM (nextM m) = m := by
  simp only [Cal.nextY, Cal.nextM, Cal.prevY, Cal.prevM]
  omega

open Cal in
theorem monthOf_of_range (z y m : Int) (h1 : 1 ≤ m) (h2 : m ≤ 12)
    (hlo : toOrd y m 1 ≤ z) (hhi : z < toOrd y m 1 + daysInMonth y m) :
    yearOf z = y ∧ monthOf z = m := by
  have h := fromOrd_eq_of z y m (z - toOrd y m 1 + 1) h1 h2 (by omega)
    (by omega) (by rw [toOrd_day]; omega)
  exact ⟨congrArg Prod.fst h, congrArg (fun p => p.2.1) h⟩

theorem append_suffix_ne (a b : String) (h : 0 < b.length) : a ++ b ≠ "" := by
  intro he
  have hl : (a ++ b).length = 0 := by rw [he]; rfl
  rw [String.length_append] at hl
  omega

theorem week5_ne : ("5주차" : String) ≠ "" := by decide

theorem week1_ne : ("1주차" : String) ≠ "" := by decide

/-- Both components of the cascade's result are non-empty strings. -/
theorem resolve_ne (z : Int) :
    (FiscalSpec.resolve z).1 ≠ "" ∧ (FiscalSpec.resolve z).2 ≠ "" := by
  simp only [FiscalSpec.resolve, FiscalSpec.monthLabel]
  split_ifs
  · exact ⟨week5_ne, append_suffix_ne _ _ (by decide)⟩
  · exact ⟨week5_ne, append_suffix_ne _ _ (by decide)⟩
  · exact ⟨week1_ne, append_suffix_ne _ _ (by decide)⟩
  · exact ⟨append_suffix_ne _ _ (by decide), append_suffix_ne _ _ (by decide)⟩

open Cal FiscalSpec in
theorem week_label_range (z : Int) :
    (Helper.get_week_and_month_label z).1
        ∈ (["1주차", "2주차", "3주차", "4주차", "5주차"] : List String)
    ∨ ((Helper.get_week_and_month_label z).1 = "0주차"
       ∧ z < fiscalMonday (yearOf z) (monthOf z)
       ∧ weeksIn (prevY (yearOf z) (monthOf z)) (prevM (monthOf z)) < 5) := by
  have hm := monthOf_bounds z
  have hin := ord_in_month z
  have hD := daysInMonth_bounds (yearOf z) (monthOf z)
  have hfwb := firstWed_bounds (yearOf z) (monthOf z)
  have hfm := fiscalMonday_eq (yearOf z) (monthOf z)
  rw [gw_eq_resolve]
  simp only [FiscalSpec.resolve]
  split_ifs with h1 h2 h3
  · left
    show "5주차" ∈ _
    decide
  · left
    show "5주차" ∈ _
    decide
  · left
    show "1주차" ∈ _
    decide
  · by_cases hc : z < fiscalMonday (yearOf z) (monthOf z)
    · right
      have h0 : (z - fiscalMonday (yearOf z) (monthOf z)) / 7 + 1 = 0 := by omega
      refine ⟨?_, hc, by omega⟩
      show toString ((z - fiscalMonday (yearOf z) (monthOf z)) / 7 + 1) ++ "주차" = _
      rw [h0]
      decide
    · left
      show toString ((z - fiscalMonday (yearOf z) (monthOf z)) / 7 + 1) ++ "주차" ∈ _
      have hw : (z - fiscalMonday (yearOf z) (monthOf z)) / 7 + 1 = 1
          ∨ (z - fiscalMonday (yearOf z) (monthOf z)) / 7 + 1 = 2
          ∨ (z - fiscalMonday (yearOf z) (monthOf z)) / 7 + 1 = 3
          ∨ (z - fiscalMonday (yearOf z) (monthOf z)) / 7 + 1 = 4
          ∨ (z - fiscalMonday (yearOf z) (monthOf z)) / 7 + 1 = 5 := by omega
      rcases hw with h | h | h | h | h <;> rw [h] <;> decide

open Cal FiscalSpec in
theorem span_label (y m z : Int) (h1 : 1 ≤ m) (h2 : m ≤ 12)
    (hzl : spanStart y m ≤ z) (hzr : z < spanStart (nextY y m) (nextM m)) :
    (Helper.get_week_and_month_label z).2 = monthLabel m := by
  have hD := daysInMonth_bounds y m
  have hfm := fiscalMonday_eq y m
  have hfwb := firstWed_bounds y m
  have htn := toOrd_next y m h1 h2
  have htd := toOrd_day y m (daysInMonth y m)
  have hpn := prev_of_next y m h1 h2
  have hsb := spanStart_bounds y m
  have hsbN := spanStart_bounds (nextY y m) (nextM m)
  have hspan2 : spanStart (nextY y m) (nextM m)
      = if 5 ≤ weeksIn y m
        then max (toOrd (nextY y m) (nextM m) 1) (fiscalMonday (nextY y m) (nextM m))
        else min (toOrd (nextY y m) (nextM m) 1) (fiscalMonday (nextY y m) (nextM m)) := by
    simp only [spanStart]
    rw [hpn.1, hpn.2]
  rw [gw_eq_resolve]
  by_cases hc1 : z < toOrd y m 1
  · -- z is in the previous civil month: only the pull-forward rule can label it
    by_cases hwp : 5 ≤ weeksIn (prevY y m) (prevM m)
    · exfalso
      have hs : spanStart y m = max (toOrd y m 1) (fiscalMonday y m) := by
        simp only [spanStart]
        rw [if_pos hwp]
      omega
    · have hs : spanStart y m = min (toOrd y m 1) (fiscalMonday y m) := by
        simp only [spanStart]
        rw [if_neg hwp]
      have hpb := prevM_bounds m h1 h2
      have htp := toOrd_prev y m h1 h2
      have htdp := toOrd_day (prevY y m) (prevM m) (daysInMonth (prevY y m) (prevM m))
      have hDp := daysInMonth_bounds (prevY y m) (prevM m)
      have hym := monthOf_of_range z (prevY y m) (prevM m) hpb.1 hpb.2
        (by omega) (by omega)
      have hnp := next_of_prev y m h1 h2
      have hfmP := fiscalMonday_eq (prevY y m) (prevM m)
      have hfwbP := firstWed_bounds (prevY y m) (prevM m)
      simp only [FiscalSpec.resolve]
      rw [hym.1, hym.2, hnp.1, hnp.2]
      split_ifs with hA hB hC
      · exfalso
        omega
      · exfalso
        omega
      · rfl
      · exfalso
        omega
  · by_cases hc2 : z < toOrd y m 1 + daysInMonth y m
    · -- z is in civil month (y, m) itself
      have hym := monthOf_of_range z y m h1 h2 (by omega) (by omega)
      have hml := mondayOfLastWeek_eq y m
      have hfs := firstWed_succ y m h1 h2
      have hfmN := fiscalMonday_eq (nextY y m) (nextM m)
      have hlwb := lastWed_bounds y m
      simp only [FiscalSpec.resolve]
      rw [hym.1, hym.2]
      split_ifs with hA hB hC
      · exfalso
        have hs : spanStart y m = max (toOrd y m 1) (fiscalMonday y m) := by
          simp only [spanStart]
          rw [if_pos hA.2]
        omega
      · rfl
      · exfalso
        rw [hspan2] at hzr
        omega
      · rfl
    · -- z is in the next civil month: only the spillover rule can label it
      by_cases hw5 : 5 ≤ weeksIn y m
      · have hnb := nextM_bounds m h1 h2
        have hDn := daysInMonth_bounds (nextY y m) (nextM m)
        have hfmN := fiscalMonday_eq (nextY y m) (nextM m)
        have hfwbN := firstWed_bounds (nextY y m) (nextM m)
        have hym := monthOf_of_range z (nextY y m) (nextM m) hnb.1 hnb.2
          (by omega) (by rw [hspan2] at hzr; omega)
        have hlt : z < fiscalMonday (nextY y m) (nextM m) := by
          rw [hspan2] at hzr
          omega
        simp only [FiscalSpec.resolve]
        rw [hym.1, hym.2, hpn.1, hpn.2]
        rw [if_pos ⟨hlt, hw5⟩]
      · exfalso
        rw [hspan2] at hzr
        omega

/-- C1: for every date, `get_week_and_month_label` returns exactly the label pair
prescribed by the five-step precedence cascade of spec §4.1, evaluated in order
with the first match winning (the cascade is formalised from the claim's wording
as `FiscalSpec.resolve`). -/
theorem C1_cascade_refinement (z : Int) :
    Helper.get_week_and_month_label z = FiscalSpec.resolve z :=
  gw_eq_resolve z

/-- C2 (counterexample): on 2018-03-01 — a date before its month's fiscal Monday
whose previous month has only 4 fiscal weeks — the week label is "0주차", which
is not one of "1주차".."5주차". -/
theorem C2_zero_week_counterexample :
    (Helper.get_week_and_month_label (Cal.toOrd 2018 3 1)).1 = "0주차"
    ∧ (Helper.get_week_and_month_label (Cal.toOrd 2018 3 1)).1
        ∉ (["1주차", "2주차", "3주차", "4주차", "5주차"] : List String) := by
  decide

/-- C2 (amended): the week label is always one of "1주차".."5주차", except that a
date before its month's fiscal Monday whose previous month has fewer than 5
fiscal weeks gets the out-of-range label "0주차". -/
theorem C2_week_label_range (z : Int) :
    (Helper.get_week_and_month_label z).1
        ∈ (["1주차", "2주차", "3주차", "4주차", "5주차"] : List String)
    ∨ ((Helper.get_week_and_month_label z).1 = "0주차"
       ∧ z < FiscalSpec.fiscalMonday (Cal.yearOf z) (Cal.monthOf z)
       ∧ FiscalSpec.weeksIn (Cal.prevY (Cal.yearOf z) (Cal.monthOf z))
           (Cal.prevM (Cal.monthOf z)) < 5) :=
  week_label_range z

/-- C3: on every date from 2020-01-01 through 2030-12-31 (and in fact on every
date), `get_week_and_month_label` is total and returns a pair of non-empty
strings. -/
theorem C3_totality_nonempty (z : Int) (hlo : Cal.toOrd 2020 1 1 ≤ z)
    (hhi : z ≤ Cal.toOrd 2030 12 31) :
    (Helper.get_week_and_month_label z).1 ≠ ""
    ∧ (Helper.get_week_and_month_label z).2 ≠ "" := by
  rw [gw_eq_resolve]
  exact resolve_ne z

theorem C3_totality_nonempty_witness :
    Cal.toOrd 2020 1 1 ≤ Cal.toOrd 2025 8 28
    ∧ Cal.toOrd 2025 8 28 ≤ Cal.toOrd 2030 12 31
    ∧ ((Helper.get_week_and_month_label (Cal.toOrd 2025 8 28)).1 ≠ ""
       ∧ (Helper.get_week_and_month_label (Cal.toOrd 2025 8 28)).2 ≠ "") :=
  ⟨by decide, by decide, C3_totality_nonempty (Cal.toOrd 2025 8 28) (by decide) (by decide)⟩

/-- C4 (counterexample): 2023-06-15 and 2024-06-15 both carry month label "06월"
while the date 2023-09-15 between them carries "09월", so the set of dates
mapping to the label "06월" is not a contiguous run of calendar days. -/
theorem C4_contiguity_counterexample :
    (Helper.get_week_and_month_label (Cal.toOrd 2023 6 15)).2 = "06월"
    ∧ (Helper.get_week_and_month_label (Cal.toOrd 2023 9 15)).2 = "09월"
    ∧ (Helper.get_week_and_month_label (Cal.toOrd 2024 6 15)).2 = "06월"
    ∧ Cal.toOrd 2023 6 15 < Cal.toOrd 2023 9 15
    ∧ Cal.toOrd 2023 9 15 < Cal.toOrd 2024 6 15 := by
  decide

/-- C4 (amended): month labels are contiguous per fiscal month, not per label
string. For every calendar month `(y, m)` the fiscal span `[spanStart y m,
spanStart (next month))` is non-empty, and every date in it gets month label
`m`; since consecutive spans abut, each fiscal month's date set is a contiguous
run and every date gets exactly one label. -/
theorem C4_span_partition (y m z : Int) (h1 : 1 ≤ m) (h2 : m ≤ 12) :
    FiscalSpec.spanStart y m < FiscalSpec.spanStart (Cal.nextY y m) (Cal.nextM m)
    ∧ (FiscalSpec.spanStart y m ≤ z →
        z < FiscalSpec.spanStart (Cal.nextY y m) (Cal.nextM m) →
        (Helper.get_week_and_month_label z).2 = FiscalSpec.monthLabel m) := by
  constructor
  · have hsb := FiscalSpec.spanStart_bounds y m
    have hsbN := FiscalSpec.spanStart_bounds (Cal.nextY y m) (Cal.nextM m)
    have htn := Cal.toOrd_next y m h1 h2
    have htd := Cal.toOrd_day y m (Cal.daysInMonth y m)
    have hD := Cal.daysInMonth_bounds y m
    omega
  · exact fun hzl hzr => span_label y m z h1 h2 hzl hzr

theorem C4_span_partition_witness :
    (1 : Int) ≤ 6 ∧ (6 : Int) ≤ 12
    ∧ (FiscalSpec.spanStart 2023 6 < FiscalSpec.spanStart (Cal.nextY 2023 6) (Cal.nextM 6)
       ∧ (FiscalSpec.spanStart 2023 6 ≤ Cal.toOrd 2023 6 15 →
           Cal.toOrd 2023 6 15 < FiscalSpec.spanStart (Cal.nextY 2023 6) (Cal.nextM 6) →
           (Helper.get_week_and_month_label (Cal.toOrd 2023 6 15)).2
             = FiscalSpec.monthLabel 6)) :=
  ⟨by decide, by decide, C4_span_partition 2023 6 (Cal.toOrd 2023 6 15) (by decide) (by decide)⟩

namespace Py

/-- A Python scalar as stored in an issue field: `None`, a number, or a string. -/
inductive PyVal where
  | none : PyVal
  | num : ℚ → PyVal
  | str : String → PyVal
deriving DecidableEq

/-- Python truthiness of a scalar: `None`, `0` and `""` are falsy. -/
def truthy : PyVal → Bool
  | .none => false
  | .num q => decide (q ≠ 0)
  | .str s => decide (s ≠ "")

/-- Python `v or 0`. -/
def orZero (v : PyVal) : PyVal := if truthy v then v else .num 0

/-- Python `s.strip()`: the string with leading and trailing whitespace
removed. -/
def pyStrip (s : String) : String :=
  ⟨((s.toList.dropWhile (fun c => c.isWhitespace)).reverse.dropWhile
      (fun c => c.isWhitespace)).reverse⟩

/-- Python `s.lower()`, character by character. -/
def pyLower (s : String) : String := ⟨s.toList.map Char.toLower⟩

/-- `s.strip().lower()`. -/
def stripLower (s : String) : String := pyLower (pyStrip s)

/-- Python `s.split(',')` on the character list: splitting an empty string
gives one empty piece. -/
def splitCommaAux : List Char → List (List Char)
  | [] => [[]]
  | c :: rest =>
    if c = ',' then [] :: splitCommaAux rest
    else
      match splitCommaAux rest with
      | [] => [[c]]
      | g :: gs => (c :: g) :: gs

/-- Python `s.split(',')`. -/
def pySplitComma (s : String) : List String :=
  (splitCommaAux s.toList).map (fun g => ⟨g⟩)

/-- Lookup in a Python dict built by inserting the pairs of `l` in order:
the last binding of a key wins. -/
def dictGet {α : Type} (l : List (String × α)) (k : String) : Option α :=
  (l.reverse.find? (fun p => p.1 == k)).map Prod.snd

/-- The value of a string of decimal digits; `Option.none` when empty or not
all digits. -/
def digitsToNat : List Char → Option Nat
  | [] => Option.none
  | cs =>
    if cs.all Char.isDigit then
      Option.some (cs.foldl (fun a c => a * 10 + (c.toNat - 48)) 0)
    else Option.none

/-- Python `float(s)` on a string, for the decimal fragment of the float
grammar (optional sign, digits, optional fractional part, surrounding
whitespace stripped); exponents, `inf` and `nan` are outside the fragment and
count as non-numeric. -/
def ratOfStr (s : String) : Option ℚ :=
  let cs := (pyStrip s).toList
  let sgncs : ℚ × List Char :=
    match cs with
    | '-' :: rest => (-1, rest)
    | '+' :: rest => (1, rest)
    | _ => (1, cs)
  let ip := sgncs.2.takeWhile (fun c => c != '.')
  match sgncs.2.dropWhile (fun c => c != '.') with
  | [] => (digitsToNat ip).map (fun n => sgncs.1 * n)
  | _ :: fp =>
    if fp.contains '.' then Option.none
    else if ip.isEmpty && fp.isEmpty then Option.none
    else if ip.all Char.isDigit && fp.all Char.isDigit then
      Option.some (sgncs.1 * ((ip.foldl (fun a c => a * 10 + (c.toNat - 48)) 0 : Nat)
        + (fp.foldl (fun a c => a * 10 + (c.toNat - 48)) 0 : Nat) / (10 ^ fp.length : ℚ)))
    else Option.none

/-- `float(v)`: a number passes through, a string is parsed (`ValueError` when
non-numeric), `None` raises `TypeError`. -/
def pyFloat : PyVal → Except String ℚ
  | .num q => .ok q
  | .str s =>
    match ratOfStr s with
    | Option.some q => .ok q
    | Option.none => .error "ValueError"
  | .none => .error "TypeError"

/-- An issue record, reduced to the fields the summing code reads:
`estimated_hours` (absent, or any scalar) and the custom-field list. -/
structure Issue where
  estimated_hours : Option PyVal
  custom_fields : List (String × PyVal)
deriving DecidableEq

/-- `float(issue.get("estimated_hours", 0) or 0)` (helper.py line 449,
main.py line 213): dict `.get` with default `0`, then `or 0`, then `float`. -/
def issueHours (issue : Issue) : Except String ℚ :=
  pyFloat (orZero (match issue.estimated_hours with
    | Option.some v => v
    | Option.none => .num 0))

/-- The hours summation of `get_all_members_weekly_plan_internal` (helper.py
lines 447-459): the `float` conversion is not guarded by a `try`, so an
exception escapes the whole loop. -/
def weeklyPlanHoursSum (issues : List Issue) : Except String ℚ :=
  issues.foldlM (fun acc issue => (issueHours issue).map (fun h => acc + h)) 0

/-- The hours summation of `get_hours_per_week_by_date` (main.py lines
209-216): the conversion is wrapped in `try/except ValueError: pass`, so a bad
record contributes nothing. -/
def hoursPerWeekSum (issues : List Issue) : ℚ :=
  issues.foldl (fun acc issue =>
    match issueHours issue with
    | .ok h => acc + h
    | .error _ => acc) 0

/-- `cpi = total_ev / total_pv if total_pv > 0 else 0.0` (helper.py lines 635
and 704). -/
def cpi (total_ev total_pv : ℚ) : ℚ := if 0 < total_pv then total_ev / total_pv else 0

end Py

namespace Main

/-- A row of `get_all_members_weekly_plan_internal`'s result, reduced to the
fields `get_members_below_weekly_threshold` reads. -/
structure PlanRow where
  name : String
  total_hours : ℚ
  total_pv : ℚ
  agreed_hours : ℚ
  agreed_pv : ℚ
deriving DecidableEq

/-- A row of `get_members_below_weekly_threshold`'s result. -/
structure BelowRow where
  name : String
  hours : ℚ
  pv : ℚ
  shortfall : ℚ
  agreed_hours : ℚ
  agreed_pv : ℚ
deriving DecidableEq

/-- The dict appended for one below-threshold member (main.py lines 1189-1196). -/
def belowRowOf (threshold : ℚ) (r : PlanRow) : BelowRow :=
  ⟨r.name, r.total_hours, r.total_pv, threshold - r.total_hours,
    r.agreed_hours, r.agreed_pv⟩

instance : DecidableRel (fun a b : BelowRow => a.hours ≤ b.hours) :=
  fun a b => inferInstanceAs (Decidable (a.hours ≤ b.hours))

instance : IsTotal BelowRow (fun a b => a.hours ≤ b.hours) :=
  ⟨fun a b => le_total a.hours b.hours⟩

instance : IsTrans BelowRow (fun a b => a.hours ≤ b.hours) :=
  ⟨fun a b c hab hbc => le_trans hab hbc⟩

/-- `get_members_below_weekly_threshold` (main.py lines 1180-1201), given the
result `all_plans` of `get_all_members_weekly_plan_internal`: keep the rows
with `total_hours` strictly below the threshold, annotate each with the
shortfall, sort ascending by hours (Python `list.sort` is a stable sort,
modelled by the stable `List.insertionSort`), and return `None` rather than an
empty list. -/
def get_members_below_weekly_threshold (all_plans : Option (List PlanRow))
    (threshold : ℚ) : Option (List BelowRow) :=
  match all_plans with
  | Option.none => Option.none
  | Option.some plans =>
    if plans.isEmpty then Option.none
    else
      let below := (plans.filter (fun r => decide (r.total_hours < threshold))).map
        (belowRowOf threshold)
      let sorted := below.insertionSort (fun a b => a.hours ≤ b.hours)
      if sorted.isEmpty then Option.none else Option.some sorted

/-- The filter dict of `get_issues_per_week_by_date` (main.py lines 147-158),
as the ordered list of key-value insertions: the four base keys, then the
conditional status/tracker/priority criteria. -/
def get_issues_per_week_by_date_params (member_id year week_label month_label : String)
    (status_id tracker_type_id priority_id : Option String) : List (String × String) :=
  let params := [("assigned_to_id", member_id), ("cf_38", year),
                 ("cf_41", week_label), ("cf_42", month_label)]
  let params :=
    match status_id with
    | Option.some s => params ++ [("status_id", s)]
    | Option.none => params
  let params :=
    match tracker_type_id with
    | Option.some t => if t ≠ "" then params ++ [("tracker_id", t)] else params
    | Option.none => params
  match priority_id with
  | Option.some p => if p ≠ "" then params ++ [("priority_id", p)] else params
  | Option.none => params

/-- The filter dict of `get_issues_per_month_by_date` (main.py lines 254-264):
as the weekly one but without the `cf_41` week label. -/
def get_issues_per_month_by_date_params (member_id year month_label : String)
    (status_id tracker_type_id priority_id : Option String) : List (String × String) :=
  let params := [("assigned_to_id", member_id), ("cf_38", year),
                 ("cf_42", month_label)]
  let params :=
    match status_id with
    | Option.some s => params ++ [("status_id", s)]
    | Option.none => params
  let params :=
    match tracker_type_id with
    | Option.some t => if t ≠ "" then params ++ [("tracker_id", t)] else params
    | Option.none => params
  match priority_id with
  | Option.some p => if p ≠ "" then params ++ [("priority_id", p)] else params
  | Option.none => params

/-- The filter dict of `get_all_members_ytd_achievement_internal` (helper.py
lines 827-832): assignee, status and year only — no week or month label. -/
def get_all_members_ytd_achievement_internal_params
    (member_id status_id year : String) : List (String × String) :=
  [("assigned_to_id", member_id), ("status_id", status_id), ("cf_38", year)]

/-- The keys of a filter dict with the status/tracker/priority criteria set
aside. -/
def coreKeys (l : List (String × String)) : List String :=
  (l.map Prod.fst).filter
    (fun k => !(k == "status_id") && !(k == "tracker_id") && !(k == "priority_id"))

end Main

namespace Helper2

open Py

/-- `get_member_id` (helper.py lines 163-174): case-insensitive,
whitespace-trimmed lookup; raises when `members` is absent, when the name is
not a key, and also when the stored id is falsy. -/
def get_member_id (name : String) (members : Option (List (String × PyVal))) :
    Except String PyVal :=
  match members with
  | Option.none => .error "members dictionary must be provided"
  | Option.some ms =>
    let name_key := stripLower name
    let members_lower := ms.map (fun p => (stripLower p.1, p.2))
    match dictGet members_lower name_key with
    | Option.some v => if truthy v then .ok v else .error "Member not found"
    | Option.none => .error "Member not found"

/-- `parse_status_param` (helper.py lines 218-228): `None` becomes `"*"`; a
comma-separated string is split, each piece trimmed and lowercased and mapped
through the status table, with an unknown name passing through as its own id;
the ids are comma-joined. -/
def parse_status_param (status : Option String)
    (issue_statuses : List (String × Int)) : String :=
  match status with
  | Option.none => "*"
  | Option.some st =>
    let status_names := (pySplitComma st).map stripLower
    let statuses_lower := issue_statuses.map (fun p => (stripLower p.1, p.2))
    let status_ids := status_names.map (fun s =>
      match dictGet statuses_lower s with
      | Option.some v => toString v
      | Option.none => s)
    String.intercalate "," status_ids

end Helper2

-- ------------------------------------------------------------------
-- Theorems
-- ------------------------------------------------------------------

/-- C5: a record whose `estimated_hours` is absent or `None` contributes 0 to
both sums without raising, and the guarded sum of `get_hours_per_week_by_date`
also treats a non-numeric string as 0; but the unguarded conversion in
`get_all_members_weekly_plan_internal` (helper.py line 449) raises `ValueError`
on the same non-numeric string, so the helper-side sum is not total. -/
theorem C5_nonnumeric_hours (s : String) (hs : Py.ratOfStr s = Option.none)
    (hne : s ≠ "") :
    Py.weeklyPlanHoursSum [⟨Option.some (Py.PyVal.str s), []⟩]
      = Except.error "ValueError"
    ∧ Py.hoursPerWeekSum [⟨Option.some (Py.PyVal.str s), []⟩] = 0
    ∧ Py.issueHours ⟨Option.none, []⟩ = Except.ok 0
    ∧ Py.issueHours ⟨Option.some Py.PyVal.none, []⟩ = Except.ok 0 := by
  have hz : ∀ o : Option Py.PyVal, (o = Option.none ∨ o = Option.some Py.PyVal.none) →
      Py.issueHours ⟨o, []⟩ = Except.ok 0 := by
    rintro o (rfl | rfl) <;>
      simp [Py.issueHours, Py.orZero, Py.truthy, Py.pyFloat]
  have h1 : Py.orZero (Py.PyVal.str s) = Py.PyVal.str s := by
    simp [Py.orZero, Py.truthy, hne]
  have hhrs : Py.issueHours ⟨Option.some (Py.PyVal.str s), []⟩
      = Except.error "ValueError" := by
    show Py.pyFloat (Py.orZero (Py.PyVal.str s)) = Except.error "ValueError"
    rw [h1]
    show (match Py.ratOfStr s with
      | Option.some q => Except.ok q
      | Option.none => Except.error "ValueError") = Except.error "ValueError"
    rw [hs]
  refine ⟨?_, ?_, hz _ (Or.inl rfl), hz _ (Or.inr rfl)⟩
  · simp only [Py.weeklyPlanHoursSum, List.foldlM, hhrs]
    rfl
  · simp only [Py.hoursPerWeekSum, List.foldl, hhrs]

theorem C5_nonnumeric_hours_witness :
    Py.ratOfStr "TBD" = Option.none
    ∧ "TBD" ≠ ""
    ∧ (Py.weeklyPlanHoursSum [⟨Option.some (Py.PyVal.str "TBD"), []⟩]
        = Except.error "ValueError"
      ∧ Py.hoursPerWeekSum [⟨Option.some (Py.PyVal.str "TBD"), []⟩] = 0
      ∧ Py.issueHours ⟨Option.none, []⟩ = Except.ok 0
      ∧ Py.issueHours ⟨Option.some Py.PyVal.none, []⟩ = Except.ok 0) :=
  ⟨by decide, by decide, C5_nonnumeric_hours "TBD" (by decide) (by decide)⟩

/-- C6: the CPI of an achievement report equals `ev / pv` when `pv > 0` and 0
otherwise; in particular `cpi 10 0 = 0` and no division error occurs. -/
theorem C6_cpi_guard (ev pv : ℚ) :
    (0 < pv → Py.cpi ev pv = ev / pv)
    ∧ (¬ 0 < pv → Py.cpi ev pv = 0)
    ∧ Py.cpi 10 0 = 0 := by
  refine ⟨fun h => ?_, fun h => ?_, ?_⟩
  · simp only [Py.cpi, if_pos h]
  · simp only [Py.cpi, if_neg h]
  · norm_num [Py.cpi]

/-- C7: the threshold report keeps exactly the plan rows strictly below the
threshold (as a permutation of the filtered list), annotates each with
`shortfall = threshold - hours`, sorts ascending by hours, returns `None`
instead of an empty list, and on the example `{A:30, B:45, C:10}` with
threshold 40 yields `[C (shortfall 30), A (shortfall 10)]` in that order. -/
theorem C7_threshold_report (plans : List Main.PlanRow) (t : ℚ) :
    (∀ l, Main.get_members_below_weekly_threshold (Option.some plans) t
        = Option.some l →
      l.Perm ((plans.filter (fun r => decide (r.total_hours < t))).map
        (Main.belowRowOf t))
      ∧ l.Pairwise (fun a b => a.hours ≤ b.hours)
      ∧ ∀ r ∈ l, r.shortfall = t - r.hours)
    ∧ ((plans.filter (fun r => decide (r.total_hours < t))).isEmpty = true →
        Main.get_members_below_weekly_threshold (Option.some plans) t
          = Option.none)
    ∧ Main.get_members_below_weekly_threshold
        (Option.some [⟨"A", 30, 0, 0, 0⟩, ⟨"B", 45, 0, 0, 0⟩, ⟨"C", 10, 0, 0, 0⟩]) 40
      = Option.some [⟨"C", 10, 0, 30, 0, 0⟩, ⟨"A", 30, 0, 10, 0, 0⟩] := by
  have hshort : ∀ r ∈ (plans.filter (fun r => decide (r.total_hours < t))).map
      (Main.belowRowOf t), r.shortfall = t - r.hours := by
    intro r hr
    obtain ⟨p, hp, hpr⟩ := List.mem_map.mp hr
    subst hpr
    rfl
  refine ⟨?_, ?_, ?_⟩
  · intro l hl
    by_cases hpe : plans.isEmpty
    · simp only [Main.get_members_below_weekly_threshold, hpe, if_true] at hl
      exact absurd hl (by simp)
    · simp only [Main.get_members_below_weekly_threshold, hpe, if_false,
        Bool.false_eq_true] at hl
      split at hl
      · exact absurd hl (by simp)
      · cases hl
        refine ⟨List.perm_insertionSort _ _, List.sorted_insertionSort _ _, ?_⟩
        intro r hr
        exact hshort r ((List.perm_insertionSort _ _).subset hr)
  · intro hbe
    rw [List.isEmpty_iff] at hbe
    by_cases hpe : plans.isEmpty
    · simp [Main.get_members_below_weekly_threshold, hpe]
    · simp [Main.get_members_below_weekly_threshold, hpe, hbe]
  · norm_num [Main.get_members_below_weekly_threshold, List.filter,
      Main.belowRowOf, List.insertionSort, List.orderedInsert]

/-- C8: with the status/tracker/priority criteria set aside, the per-week
filter is built from exactly the keys {assigned_to_id, cf_38, cf_41, cf_42},
the per-month filter from exactly {assigned_to_id, cf_38, cf_42}, and the YTD
filter from exactly {assigned_to_id, cf_38}. -/
theorem C8_filter_keys (member_id year week_label month_label status_id2 : String)
    (status_id tracker_type_id priority_id : Option String) :
    Main.coreKeys (Main.get_issues_per_week_by_date_params member_id year
        week_label month_label status_id tracker_type_id priority_id)
      = ["assigned_to_id", "cf_38", "cf_41", "cf_42"]
    ∧ Main.coreKeys (Main.get_issues_per_month_by_date_params member_id year
        month_label status_id tracker_type_id priority_id)
      = ["assigned_to_id", "cf_38", "cf_42"]
    ∧ Main.coreKeys (Main.get_all_members_ytd_achievement_internal_params
        member_id status_id2 year)
      = ["assigned_to_id", "cf_38"] := by
  refine ⟨?_, ?_, rfl⟩
  · rcases status_id with _ | s <;> rcases tracker_type_id with _ | tr <;>
      rcases priority_id with _ | pr <;>
      simp only [Main.get_issues_per_week_by_date_params, Main.coreKeys] <;>
      first
      | rfl
      | (split_ifs <;> rfl)
  · rcases status_id with _ | s <;> rcases tracker_type_id with _ | tr <;>
      rcases priority_id with _ | pr <;>
      simp only [Main.get_issues_per_month_by_date_params, Main.coreKeys] <;>
      first
      | rfl
      | (split_ifs <;> rfl)

/-- C9: `get_member_id` looks a name up case-insensitively after trimming, but
reports a member whose stored id is falsy (0, the empty string, or null) as
not found; a truthy id is returned. -/
theorem C9_falsy_id (name : String) (members : List (String × Py.PyVal))
    (v : Py.PyVal)
    (hfind : Py.dictGet (members.map (fun p => (Py.stripLower p.1, p.2)))
      (Py.stripLower name) = Option.some v) :
    ((v = Py.PyVal.num 0 ∨ v = Py.PyVal.str "" ∨ v = Py.PyVal.none) →
      Helper2.get_member_id name (Option.some members)
        = Except.error "Member not found")
    ∧ (Py.truthy v = true →
      Helper2.get_member_id name (Option.some members) = Except.ok v) := by
  constructor
  · intro hv
    have hf : Py.truthy v = false := by
      rcases hv with h | h | h <;> subst h <;> simp [Py.truthy]
    simp only [Helper2.get_member_id, hfind, hf, Bool.false_eq_true, if_false]
  · intro hv
    simp only [Helper2.get_member_id, hfind, hv, if_true]

theorem C9_falsy_id_witness :
    Py.dictGet ([("Alice", Py.PyVal.str "")].map (fun p => (Py.stripLower p.1, p.2)))
      (Py.stripLower " ALICE") = Option.some (Py.PyVal.str "")
    ∧ (((Py.PyVal.str "" = Py.PyVal.num 0 ∨ Py.PyVal.str "" = Py.PyVal.str ""
          ∨ Py.PyVal.str "" = Py.PyVal.none) →
        Helper2.get_member_id " ALICE" (Option.some [("Alice", Py.PyVal.str "")])
          = Except.error "Member not found")
      ∧ (Py.truthy (Py.PyVal.str "") = true →
        Helper2.get_member_id " ALICE" (Option.some [("Alice", Py.PyVal.str "")])
          = Except.ok (Py.PyVal.str ""))) :=
  ⟨by decide, C9_falsy_id " ALICE" [("Alice", Py.PyVal.str "")] (Py.PyVal.str "")
    (by decide)⟩

/-- C10: `parse_status_param` never raises: `None` yields `"*"`, and a
comma-separated status string is split, trimmed, lowercased and mapped through
the table, an unknown name passing through as its own id in the comma-joined
result; concretely an unknown status `" Bogus"` next to a known one survives
as `"bogus"`. -/
theorem C10_passthrough (s : String) (issue_statuses : List (String × Int)) :
    Helper2.parse_status_param Option.none issue_statuses = "*"
    ∧ Helper2.parse_status_param (Option.some s) issue_statuses
      = String.intercalate "," ((Py.pySplitComma s).map (fun n =>
          match Py.dictGet (issue_statuses.map (fun p => (Py.stripLower p.1, p.2)))
              (Py.stripLower n) with
          | Option.some v => toString v
          | Option.none => Py.stripLower n))
    ∧ Helper2.parse_status_param (Option.some "신규, Bogus") [("신규", 1)]
      = "1,bogus" := by
  refine ⟨rfl, ?_, by decide⟩
  simp only [Helper2.parse_status_param, List.map_map]
  rfl
